import Mathlib

/-!
Verification development for the "war" card-game client and server
(`war.py`).  The Python source is shallowly embedded: pure functions become
Lean functions on `Nat`/`Int` and `List Nat` (a `bytes` value is a list of
byte values), socket I/O becomes an explicit environment oracle describing
what each `recv`/`sendall` call would do, and the thread body
`handle_game_clients` becomes a function from that environment to the trace
of observable socket events it performs.
-/

namespace War

/-- The byte values sent as the first byte of any message
(`class Command(Enum)` in the source). -/
def Command.WANTGAME : Nat := 0

/-- `Command.GAMESTART` tag byte. -/
def Command.GAMESTART : Nat := 1

/-- `Command.PLAYCARD` tag byte. -/
def Command.PLAYCARD : Nat := 2

/-- `Command.PLAYRESULT` tag byte. -/
def Command.PLAYRESULT : Nat := 3

/-- The byte values sent as the payload byte of a PLAYRESULT message
(`class Result(Enum)` in the source). -/
def Result.WIN : Nat := 0

/-- `Result.DRAW` payload byte. -/
def Result.DRAW : Nat := 1

/-- `Result.LOSE` payload byte. -/
def Result.LOSE : Nat := 2

/-- `compare_cards(card1, card2)` from the source: reduce both cards mod 13
and compare.  The Python function falls through to `return None` after the
three guarded returns, so the embedding returns an `Option Int`.  Python's
`%` on ints with a positive modulus agrees with `Int.emod`, which is what
`%` denotes on `Int` in Lean. -/
def compare_cards (card1 card2 : Int) : Option Int :=
  let c1 := card1 % 13
  let c2 := card2 % 13
  if c1 < c2 then some (-1)
  else if c1 = c2 then some 0
  else if c1 > c2 then some 1
  else none

/-- `deal_cards()` from the source, with the result of `random.shuffle` on
`list(range(52))` passed in as the `card_deck` parameter (the randomness
source is external).  The deck is split into first-26 / last-26 and each
half is packed as `struct.pack('27B', Command.GAMESTART.value, *half)`,
i.e. the GAMESTART tag byte followed by the 26 card bytes. -/
def deal_cards (card_deck : List Nat) : List Nat × List Nat :=
  let player_one_deck := card_deck.take 26
  let player_two_deck := card_deck.drop 26
  let player_one_hand := Command.GAMESTART :: player_one_deck
  let player_two_hand := Command.GAMESTART :: player_two_deck
  (player_one_hand, player_two_hand)

/-- `readexactly(sock, numbytes)` from the source.  A socket is modelled as
the sequence of chunks its successive `recv` calls return (`chunks k` is
the `k`-th `recv` result; an empty chunk is a `recv` that returned zero
bytes, i.e. EOF).  The Python `while` loop is given explicit fuel: `some`
is the value an execution of the loop returns within `fuel` iterations and
`none` means the loop has not terminated after `fuel` iterations.

Source:
    recieved_data = sock.recv(numbytes)
    while len(recieved_data) < numbytes:
        recieved_data += sock.recv(numbytes)
    return recieved_data
-/
def readexactlyLoop (chunks : Nat → List Nat) (numbytes : Nat) :
    Nat → Nat → List Nat → Option (List Nat)
  | 0, _, recieved_data =>
      if numbytes ≤ recieved_data.length then some recieved_data else none
  | fuel + 1, k, recieved_data =>
      if numbytes ≤ recieved_data.length then some recieved_data
      else readexactlyLoop chunks numbytes fuel (k + 1)
        (recieved_data ++ chunks k)

/-- `readexactly` entry point: the first `recv` happens before the loop. -/
def readexactly (chunks : Nat → List Nat) (numbytes : Nat) (fuel : Nat) :
    Option (List Nat) :=
  readexactlyLoop chunks numbytes fuel 1 (chunks 0)

/-! ## The Game Session: `handle_game_clients`

`handle_game_clients(player_one, player_two)` is the thread body serving
one game.  Its interaction with the two sockets is embedded as a function
from an environment oracle (what every `recv` returns or whether it raises
`socket.error`, whether every `sendall` succeeds, and the shuffled deck
`deal_cards` produces) to the list of observable socket events, in order,
plus whether the thread died with an uncaught exception.
-/

/-- One observable socket event of a session run.  `recvWant1`/`recvWant2`
are the two initial `recv(2)` calls (with the bytes obtained);
`recvRound1 i`/`recvRound2 i` are the round-`i` `recv(2)` calls;
`sendTo1`/`sendTo2` are *successful* `sendall` calls with the bytes sent;
`close1`/`close2` are `close()` calls on the respective socket. -/
inductive Ev where
  | recvWant1 (bs : List Nat)
  | recvWant2 (bs : List Nat)
  | recvRound1 (i : Nat)
  | recvRound2 (i : Nat)
  | sendTo1 (msg : List Nat)
  | sendTo2 (msg : List Nat)
  | close1
  | close2
deriving DecidableEq, Repr

/-- `kill_game(game)` from the source: `game[0].close(); game[1].close()`.
As an event trace: close player one's socket, then player two's. -/
def kill_game : List Ev := [Ev.close1, Ev.close2]

/-- Environment oracle for one `handle_game_clients` run: the outcome of
every socket operation the code may attempt, plus the shuffled deck.
`none` for a `recv` means the call raised `socket.error`; `false` for a
send means `sendall` raised `socket.error`. -/
structure Env where
  want1 : Option (List Nat)
  want2 : Option (List Nat)
  deck : List Nat
  sendStart1 : Bool
  sendStart2 : Bool
  roundRecv1 : Nat → Option (List Nat)
  roundRecv2 : Nat → Option (List Nat)
  roundSend1 : Nat → Bool
  roundSend2 : Nat → Bool

/-- The Python local variables live across loop iterations; this is their
state at the top of a round.  `p1play`/`p2play` model
`player_one_play_card`/`player_two_play_card` (`none` = not yet bound, so
that reading it raises `NameError`); `p1data`/`p2data` model
`player_one_data`/`player_two_data`, which at loop entry still hold the
WantGame bytes and afterwards hold the last successful `struct.unpack`
result (a pair of byte values, kept as a 2-element list). -/
structure LoopSt where
  p1data : List Nat
  p2data : List Nat
  p1play : Option (List Nat)
  p2play : Option (List Nat)
deriving Repr

/-- How a round body ends: fall through to the next iteration with updated
locals, `return` out of the function, or die on an uncaught exception. -/
inductive RoundRes where
  | cont (st : LoopSt)
  | ret
  | crash
deriving Repr

/-- The round's first `try` block: `recv` from player one then player two;
`socket.error` is caught and answered with `kill_game` — and then control
falls through to the unpack block (the handler does not return). -/
def recvPhase (env : Env) (i : Nat) (st : LoopSt) : List Ev × LoopSt :=
  match env.roundRecv1 i with
  | none => ([Ev.recvRound1 i] ++ kill_game, st)
  | some b1 =>
    match env.roundRecv2 i with
    | none =>
        ([Ev.recvRound1 i, Ev.recvRound2 i] ++ kill_game,
         { st with p1play := some b1 })
    | some b2 =>
        ([Ev.recvRound1 i, Ev.recvRound2 i],
         { st with p1play := some b1, p2play := some b2 })

/-- The round's second `try` block: `struct.unpack('2B', ...)` on each
recorded play-card buffer.  Reading an unbound local raises `NameError`,
which no handler catches (`crash`, i.e. `none`); `struct.error` (buffer
length ≠ 2) is caught and answered with `kill_game`, falling through with
the data locals of any successful unpack retained. -/
def unpackPhase (st : LoopSt) : List Ev × Option LoopSt :=
  match st.p1play with
  | none => ([], none)
  | some b1 =>
    if b1.length = 2 then
      let st1 := { st with p1data := b1 }
      match st.p2play with
      | none => ([], none)
      | some b2 =>
        if b2.length = 2 then ([], some { st1 with p2data := b2 })
        else (kill_game, some st1)
    else (kill_game, some st)

/-- `compare_cards`' result mapped to the pair of PLAYRESULT messages
packed in the round body: `-1` → player one LOSE / player two WIN, `1` →
player one WIN / player two LOSE, anything else (`0`, and the unreachable
`None`) → DRAW for both. -/
def roundResults (cmp : Option Int) : List Nat × List Nat :=
  if cmp = some (-1) then
    ([Command.PLAYRESULT, Result.LOSE], [Command.PLAYRESULT, Result.WIN])
  else if cmp = some 1 then
    ([Command.PLAYRESULT, Result.WIN], [Command.PLAYRESULT, Result.LOSE])
  else
    ([Command.PLAYRESULT, Result.DRAW], [Command.PLAYRESULT, Result.DRAW])

/-- The rest of the round body: extract the card bytes (`data[1]`), check
both tags are PLAYCARD (`kill_game` and `return` on a bad tag), compare the
cards, and try to send the PLAYRESULT pair (`socket.error` caught, answered
with `kill_game`, then fall through to the next round). -/
def resultPhase (env : Env) (i : Nat) (st : LoopSt) : List Ev × RoundRes :=
  let player_one_card := st.p1data.getD 1 0
  let player_two_card := st.p2data.getD 1 0
  if st.p1data.getD 0 0 ≠ Command.PLAYCARD then (kill_game, RoundRes.ret)
  else if st.p2data.getD 0 0 ≠ Command.PLAYCARD then (kill_game, RoundRes.ret)
  else
    let res := roundResults
      (compare_cards (player_one_card : Int) (player_two_card : Int))
    if env.roundSend1 i then
      if env.roundSend2 i then
        ([Ev.sendTo1 res.1, Ev.sendTo2 res.2], RoundRes.cont st)
      else
        ([Ev.sendTo1 res.1] ++ kill_game, RoundRes.cont st)
    else (kill_game, RoundRes.cont st)

/-- One iteration of `for i in range(1, 27)`: receive, unpack, compare and
send, chaining the fall-through behaviour of the three `except` handlers. -/
def roundBody (env : Env) (i : Nat) (st : LoopSt) : List Ev × RoundRes :=
  let r := recvPhase env i st
  let u := unpackPhase r.2
  match u.2 with
  | none => (r.1 ++ u.1, RoundRes.crash)
  | some st2 =>
      let f := resultPhase env i st2
      (r.1 ++ u.1 ++ f.1, f.2)

/-- The 26-round loop, structurally recursing on the number of rounds left
(`i` is the Python loop variable).  The boolean is `true` when the run died
with an uncaught exception. -/
def gameLoop (env : Env) : Nat → Nat → LoopSt → List Ev × Bool
  | 0, _, _ => ([], false)
  | n + 1, i, st =>
    match roundBody env i st with
    | (t, RoundRes.crash) => (t, true)
    | (t, RoundRes.ret) => (t, false)
    | (t, RoundRes.cont st2) =>
        let rest := gameLoop env n (i + 1) st2
        (t ++ rest.1, rest.2)

/-- Result of running `handle_game_clients` once: the socket-event trace
and whether the thread died with an uncaught exception. -/
structure RunOut where
  trace : List Ev
  crashed : Bool
deriving DecidableEq, Repr

/-- `handle_game_clients(player_one, player_two)` from the source:
the two initial `recv(2)` calls (an uncaught `socket.error` there kills the
thread), the WantGame check (`kill_game` and `return` unless both equal
`b'\0\0'`), `deal_cards`, the guarded GameStart sends (whose `except`
handler calls `kill_game` but does **not** return), and the 26-round
loop. -/
def handle_game_clients (env : Env) : RunOut :=
  match env.want1 with
  | none => ⟨[], true⟩
  | some w1 =>
    match env.want2 with
    | none => ⟨[Ev.recvWant1 w1], true⟩
    | some w2 =>
      let t0 := [Ev.recvWant1 w1, Ev.recvWant2 w2]
      if w1 ≠ [0, 0] ∨ w2 ≠ [0, 0] then ⟨t0 ++ kill_game, false⟩
      else
        let hands := deal_cards env.deck
        let tSend :=
          if env.sendStart1 then
            if env.sendStart2 then [Ev.sendTo1 hands.1, Ev.sendTo2 hands.2]
            else [Ev.sendTo1 hands.1] ++ kill_game
          else kill_game
        let st0 : LoopSt :=
          { p1data := w1, p2data := w2, p1play := none, p2play := none }
        let rest := gameLoop env 26 1 st0
        ⟨t0 ++ tSend ++ rest.1, rest.2⟩

/-! ## The Client Agent: `client`

`client(host, port, loop)` plays one game.  On the success path it writes
`b"\0\0"`, reads the 27-byte GameStart message, then for each card of
`card_msg[1:]` in order writes a PLAYCARD message and reads a 2-byte
PLAYRESULT, accumulating the score.  The embedding takes the received
GameStart bytes and an oracle for the successive 2-byte PLAYRESULT reads
(asyncio's `readexactly(2)` returns exactly 2 bytes or raises, and a raise
aborts the game, so only the success path is reached here), and returns the
PLAYCARD messages written and the final score. -/

/-- The body of `for card in card_msg[1:]` folded over the remaining cards:
`results k` is the `k`-th 2-byte PLAYRESULT read; `result[1] == WIN` adds
1 to the score, `result[1] == LOSE` subtracts 1, anything else leaves it. -/
def clientLoop (results : Nat → List Nat) :
    List Nat → Nat → Int → List (List Nat) × Int
  | [], _, myscore => ([], myscore)
  | card :: rest, k, myscore =>
      let result := results k
      let myscore2 :=
        if result.getD 1 0 = Result.WIN then myscore + 1
        else if result.getD 1 0 = Result.LOSE then myscore - 1
        else myscore
      let r := clientLoop results rest (k + 1) myscore2
      ([Command.PLAYCARD, card] :: r.1, r.2)

/-- The success path of `client`: play every card of `card_msg[1:]` in
order and return the written PLAYCARD messages plus the net score. -/
def clientRun (card_msg : List Nat) (results : Nat → List Nat) :
    List (List Nat) × Int :=
  clientLoop results (card_msg.drop 1) 0 0

/-- The final classification in `client`: `"won"` if the score is
positive, `"lost"` if negative, `"drew"` otherwise. -/
def classifyScore (myscore : Int) : String :=
  if myscore > 0 then "won" else if myscore < 0 then "lost" else "drew"

/-! ## The Concurrency Limiter: `limit_client` / `run_all_clients`

`main` in `clients` mode creates `asyncio.Semaphore(1000)` and N
`limit_client` coroutines, each of which runs `async with sem: await
client(...)`.  The semaphore discipline is embedded as a transition system
over the counts of agents in each phase: an agent is `pending` until it
acquires the semaphore, `running` (non-terminal, in flight) while it holds
it, and `done` once `client` returns and the semaphore is released.  A
`start` step acquires the semaphore and is enabled only while fewer than
`L` agents hold it; a `finish` step releases it. -/

/-- Counts of client agents that have not yet acquired the semaphore
(`pending`), hold it and are in flight (`running`), and have finished
(`done`). -/
structure LimState where
  pending : Nat
  running : Nat
  done : Nat
deriving DecidableEq, Repr

/-- One scheduler step of the limiter with concurrency ceiling `L`:
`start` moves a pending agent into the semaphore (enabled only when fewer
than `L` agents hold it), `finish` retires a running agent. -/
inductive LimStep (L : Nat) : LimState → LimState → Prop where
  | start (p r d : Nat) (h : r < L) :
      LimStep L ⟨p + 1, r, d⟩ ⟨p, r + 1, d⟩
  | finish (p r d : Nat) :
      LimStep L ⟨p, r + 1, d⟩ ⟨p, r, d + 1⟩

/-- States reachable by the limiter from `N` agents all pending. -/
def LimReach (L N : Nat) (s : LimState) : Prop :=
  Relation.ReflTransGen (LimStep L) ⟨N, 0, 0⟩ s

/-- `true` exactly on the successful-send events of a session trace. -/
def isSendEv : Ev → Bool
  | Ev.sendTo1 _ => true
  | Ev.sendTo2 _ => true
  | _ => false

/-- `true` exactly on the round `recv` events of a session trace. -/
def isRecvRoundEv : Ev → Bool
  | Ev.recvRound1 _ => true
  | Ev.recvRound2 _ => true
  | _ => false

/-- `true` exactly on the `close()` events of a session trace. -/
def isCloseEv : Ev → Bool
  | Ev.close1 => true
  | Ev.close2 => true
  | _ => false

/-- The part of a session trace strictly after the first `close()` call. -/
def afterFirstClose (t : List Ev) : List Ev :=
  (t.dropWhile (fun e => !isCloseEv e)).drop 1

/-! ## Theorems -/

/-- `compare_cards` on a strictly smaller first rank. -/
theorem compare_cards_of_lt {a b : Int} (h : a % 13 < b % 13) :
    compare_cards a b = some (-1) := by
  simp [compare_cards, h]

/-- `compare_cards` on equal ranks. -/
theorem compare_cards_of_eq {a b : Int} (h : a % 13 = b % 13) :
    compare_cards a b = some 0 := by
  simp [compare_cards, h, lt_irrefl]

/-- `compare_cards` on a strictly larger first rank. -/
theorem compare_cards_of_gt {a b : Int} (h : b % 13 < a % 13) :
    compare_cards a b = some 1 := by
  simp [compare_cards, asymm h, h.ne', gt_iff_lt, h]

/-- C5: for all integer card values `a` and `b`, `compare_cards a b` and
`compare_cards b a` are inverse (`-1` on one side iff `1` on the other,
`0` iff `0`), `compare_cards a a = 0`, and the result is `0` exactly when
`a` and `b` have the same rank `mod 13` (suit is ignored). -/
theorem compare_cards_rank_laws (a b : Int) :
    (compare_cards a b = some (-1) ↔ compare_cards b a = some 1) ∧
    (compare_cards a b = some 0 ↔ compare_cards b a = some 0) ∧
    compare_cards a a = some 0 ∧
    (compare_cards a b = some 0 ↔ a % 13 = b % 13) := by
  rcases lt_trichotomy (a % 13) (b % 13) with h | h | h
  · rw [compare_cards_of_lt h, compare_cards_of_gt h]
    exact ⟨by simp, by simp, compare_cards_of_eq rfl, by simp [h.ne]⟩
  · rw [compare_cards_of_eq h, compare_cards_of_eq h.symm]
    exact ⟨by simp, by simp, compare_cards_of_eq rfl, by simp [h]⟩
  · rw [compare_cards_of_gt h, compare_cards_of_lt h]
    exact ⟨by simp, by simp, compare_cards_of_eq rfl, by simp [h.ne']⟩

/-- C10: `compare_cards` is total over all integer inputs and always
returns `some r` with `r ∈ \x7b-1, 0, 1\x7d`; the trailing `return None`
branch is unreachable. -/
theorem compare_cards_never_none (a b : Int) :
    ∃ r, compare_cards a b = some r ∧ (r = -1 ∨ r = 0 ∨ r = 1) := by
  rcases lt_trichotomy (a % 13) (b % 13) with h | h | h
  · exact ⟨-1, compare_cards_of_lt h, Or.inl rfl⟩
  · exact ⟨0, compare_cards_of_eq h, Or.inr (Or.inl rfl)⟩
  · exact ⟨1, compare_cards_of_gt h, Or.inr (Or.inr rfl)⟩

/-- On a stream whose every `recv` returns zero bytes, the accumulator of
`readexactly`'s loop never grows, so the loop never terminates. -/
theorem readexactlyLoop_eof_none (numbytes : Nat) :
    ∀ (fuel k : Nat) (acc : List Nat), acc.length < numbytes →
      readexactlyLoop (fun _ => []) numbytes fuel k acc = none := by
  intro fuel
  induction fuel with
  | zero =>
      intro k acc hacc
      simp [readexactlyLoop, Nat.not_le_of_lt hacc]
  | succ n ih =>
      intro k acc hacc
      simp only [readexactlyLoop, Nat.not_le_of_lt hacc, if_false,
        List.append_nil]
      exact ih (k + 1) acc hacc

/-- C2: `readexactly` on a stream that signals end-of-stream (every `recv`
returns zero bytes) before `numbytes` bytes are accumulated does not
terminate for any loop bound, instead of failing with a `ConnectionClosed`
error: the accumulate-until-n loop spins forever on EOF. -/
theorem readexactly_eof_never_terminates :
    ∀ fuel, readexactly (fun _ => []) 2 fuel = none := by
  intro fuel
  unfold readexactly
  exact readexactlyLoop_eof_none 2 fuel 1 [] (by simp)

/-- C6: for any shuffled deck (a permutation of `\x7b0,...,51\x7d`),
`deal_cards` returns two pre-encoded 27-byte GameStart messages, each a
GAMESTART tag byte followed by 26 card bytes in hand order (the first 26
of the deck for player one, the last 26 for player two); the two hands are
disjoint and together are exactly the full deck `\x7b0,...,51\x7d`. -/
theorem deal_cards_spec (card_deck : List Nat)
    (hperm : card_deck.Perm (List.range 52)) :
    (deal_cards card_deck).1 = Command.GAMESTART :: card_deck.take 26 ∧
    (deal_cards card_deck).2 = Command.GAMESTART :: card_deck.drop 26 ∧
    (deal_cards card_deck).1.length = 27 ∧
    (deal_cards card_deck).2.length = 27 ∧
    (card_deck.take 26).length = 26 ∧
    (card_deck.drop 26).length = 26 ∧
    List.Disjoint (card_deck.take 26) (card_deck.drop 26) ∧
    (card_deck.take 26 ++ card_deck.drop 26).Perm (List.range 52) := by
  have hlen : card_deck.length = 52 := by
    simpa using hperm.length_eq
  have hnodup : card_deck.Nodup := hperm.symm.nodup (List.nodup_range 52)
  have hsplit : card_deck.take 26 ++ card_deck.drop 26 = card_deck :=
    List.take_append_drop 26 card_deck
  have hdisj : List.Disjoint (card_deck.take 26) (card_deck.drop 26) := by
    have := hnodup
    rw [← hsplit, List.nodup_append] at this
    exact this.2.2
  refine ⟨rfl, rfl, ?_, ?_, ?_, ?_, hdisj, ?_⟩
  · simp [deal_cards, hlen]
  · simp [deal_cards, hlen]
  · simp [hlen]
  · simp [hlen]
  · rw [hsplit]; exact hperm

/-- C6 witness: `deal_cards` on the identity deck `[0, ..., 51]`. -/
theorem deal_cards_spec_witness :
    (deal_cards (List.range 52)).1 =
      Command.GAMESTART :: (List.range 52).take 26 ∧
    (deal_cards (List.range 52)).2 =
      Command.GAMESTART :: (List.range 52).drop 26 ∧
    (deal_cards (List.range 52)).1.length = 27 ∧
    (deal_cards (List.range 52)).2.length = 27 ∧
    ((List.range 52).take 26).length = 26 ∧
    ((List.range 52).drop 26).length = 26 ∧
    List.Disjoint ((List.range 52).take 26) ((List.range 52).drop 26) ∧
    ((List.range 52).take 26 ++ (List.range 52).drop 26).Perm
      (List.range 52) :=
  deal_cards_spec (List.range 52) (List.Perm.refl _)

/-- C4: if either initial 2-byte message differs from the WantGame bytes
`[0, 0]`, the session sends nothing at all (no GameStart, no other bytes),
returns normally (terminal `Killed`, no crash), and closes each of the two
connections exactly once. -/
theorem session_bad_wantgame_killed (env : Env) (w1 w2 : List Nat)
    (h1 : env.want1 = some w1) (h2 : env.want2 = some w2)
    (hbad : w1 ≠ [0, 0] ∨ w2 ≠ [0, 0]) :
    handle_game_clients env =
      ⟨[Ev.recvWant1 w1, Ev.recvWant2 w2, Ev.close1, Ev.close2], false⟩ ∧
    (handle_game_clients env).trace.filter isSendEv = [] ∧
    (handle_game_clients env).crashed = false ∧
    (handle_game_clients env).trace.count Ev.close1 = 1 ∧
    (handle_game_clients env).trace.count Ev.close2 = 1 := by
  have key : handle_game_clients env =
      ⟨[Ev.recvWant1 w1, Ev.recvWant2 w2, Ev.close1, Ev.close2], false⟩ := by
    unfold handle_game_clients
    rw [h1, h2]
    simp only [if_pos hbad, kill_game]
    rfl
  refine ⟨key, ?_, ?_, ?_, ?_⟩ <;> rw [key] <;>
    simp [isSendEv, List.count_cons, List.count_nil]

/-- C4 witness environment: player one opens with a PLAYCARD-tagged
message instead of WantGame; every later operation would succeed. -/
def badWantEnv : Env :=
  { want1 := some [2, 0], want2 := some [0, 0],
    deck := List.range 52,
    sendStart1 := true, sendStart2 := true,
    roundRecv1 := fun _ => some [Command.PLAYCARD, 0],
    roundRecv2 := fun _ => some [Command.PLAYCARD, 1],
    roundSend1 := fun _ => true, roundSend2 := fun _ => true }

/-- C4 witness: the concrete bad-WantGame session. -/
theorem session_bad_wantgame_killed_witness :
    handle_game_clients badWantEnv =
      ⟨[Ev.recvWant1 [2, 0], Ev.recvWant2 [0, 0], Ev.close1, Ev.close2],
       false⟩ ∧
    (handle_game_clients badWantEnv).trace.filter isSendEv = [] ∧
    (handle_game_clients badWantEnv).crashed = false ∧
    (handle_game_clients badWantEnv).trace.count Ev.close1 = 1 ∧
    (handle_game_clients badWantEnv).trace.count Ev.close2 = 1 :=
  session_bad_wantgame_killed badWantEnv [2, 0] [0, 0] rfl rfl
    (by decide)

/-- C1 failing input: a fully successful session — both clients send the
WantGame bytes, every send succeeds, and both clients send well-formed
PLAYCARD messages for all 26 rounds. -/
def happyEnv : Env :=
  { want1 := some [0, 0], want2 := some [0, 0],
    deck := List.range 52,
    sendStart1 := true, sendStart2 := true,
    roundRecv1 := fun _ => some [Command.PLAYCARD, 0],
    roundRecv2 := fun _ => some [Command.PLAYCARD, 1],
    roundSend1 := fun _ => true, roundSend2 := fun _ => true }

/-- C1: evaluating `handle_game_clients` on the fully successful session:
the run returns normally after round 26 but performs **zero** `close()`
calls on either connection, contradicting the claim that both connections
are closed exactly once on every terminal path. -/
theorem session_success_never_closes :
    (handle_game_clients happyEnv).crashed = false ∧
    (handle_game_clients happyEnv).trace.count Ev.close1 = 0 ∧
    (handle_game_clients happyEnv).trace.count Ev.close2 = 0 ∧
    (handle_game_clients happyEnv).trace.length = 108 := by decide

/-- C3 failing input: both clients send valid WantGame bytes, but
`player_one.sendall` of the GameStart hand raises `socket.error`; both
clients then keep answering every round `recv` with well-formed PLAYCARD
messages and every later send succeeds. -/
def sendFailEnv : Env :=
  { want1 := some [0, 0], want2 := some [0, 0],
    deck := List.range 52,
    sendStart1 := false, sendStart2 := true,
    roundRecv1 := fun _ => some [Command.PLAYCARD, 0],
    roundRecv2 := fun _ => some [Command.PLAYCARD, 1],
    roundSend1 := fun _ => true, roundSend2 := fun _ => true }

/-- C3: evaluating `handle_game_clients` on the GameStart-send-failure
session: `kill_game` closes both connections (one `close1`), but the
session then **continues** — strictly after the first `close()` the trace
still contains round `recv` attempts and successful PlayResult sends, so
the session does not immediately become terminal on a send failure. -/
theorem session_send_failure_continues :
    (handle_game_clients sendFailEnv).crashed = false ∧
    (handle_game_clients sendFailEnv).trace.count Ev.close1 = 1 ∧
    (afterFirstClose (handle_game_clients sendFailEnv).trace).any
      isRecvRoundEv = true ∧
    (afterFirstClose (handle_game_clients sendFailEnv).trace).any
      isSendEv = true := by decide

/-- C7: in a round where both PlayCard messages were received and carry the
PLAYCARD tag and both sends succeed, the round body sends exactly one
PlayResult message to each side, the pair is the one the single
`compare_cards` outcome determines, and it is complementary: Win/Lose one
way or the other when the ranks differ, Draw/Draw when they are equal —
(Win, Win) and (Lose, Lose) are impossible. -/
theorem round_result_pair_complementary (env : Env) (i : Nat) (st : LoopSt)
    (c1 c2 : Nat)
    (h1 : st.p1data = [Command.PLAYCARD, c1])
    (h2 : st.p2data = [Command.PLAYCARD, c2])
    (hs1 : env.roundSend1 i = true) (hs2 : env.roundSend2 i = true) :
    ∃ r1 r2,
      resultPhase env i st =
        ([Ev.sendTo1 r1, Ev.sendTo2 r2], RoundRes.cont st) ∧
      (r1, r2) = roundResults (compare_cards (c1 : Int) (c2 : Int)) ∧
      ((c1 % 13 = c2 % 13 ∧
          r1 = [Command.PLAYRESULT, Result.DRAW] ∧
          r2 = [Command.PLAYRESULT, Result.DRAW]) ∨
       (c1 % 13 ≠ c2 % 13 ∧
          ((r1 = [Command.PLAYRESULT, Result.WIN] ∧
            r2 = [Command.PLAYRESULT, Result.LOSE]) ∨
           (r1 = [Command.PLAYRESULT, Result.LOSE] ∧
            r2 = [Command.PLAYRESULT, Result.WIN])))) ∧
      ¬(r1 = [Command.PLAYRESULT, Result.WIN] ∧
        r2 = [Command.PLAYRESULT, Result.WIN]) ∧
      ¬(r1 = [Command.PLAYRESULT, Result.LOSE] ∧
        r2 = [Command.PLAYRESULT, Result.LOSE]) := by
  have hphase : resultPhase env i st =
      ([Ev.sendTo1 (roundResults (compare_cards (c1 : Int) (c2 : Int))).1,
        Ev.sendTo2 (roundResults (compare_cards (c1 : Int) (c2 : Int))).2],
       RoundRes.cont st) := by
    unfold resultPhase
    rw [h1, h2, hs1, hs2]
    simp [Command.PLAYCARD]
  refine ⟨_, _, hphase, rfl, ?_, ?_, ?_⟩
  · rcases lt_trichotomy ((c1 : Int) % 13) ((c2 : Int) % 13) with h | h | h
    · refine Or.inr ⟨by omega, Or.inr ?_⟩
      rw [compare_cards_of_lt h]
      simp [roundResults]
    · refine Or.inl ⟨by omega, ?_⟩
      rw [compare_cards_of_eq h]
      simp [roundResults]
    · refine Or.inr ⟨by omega, Or.inl ?_⟩
      rw [compare_cards_of_gt h]
      simp [roundResults]
  · rcases lt_trichotomy ((c1 : Int) % 13) ((c2 : Int) % 13) with h | h | h
    · rw [compare_cards_of_lt h]; simp [roundResults, Result.WIN, Result.LOSE]
    · rw [compare_cards_of_eq h]; simp [roundResults, Result.WIN, Result.DRAW]
    · rw [compare_cards_of_gt h]; simp [roundResults, Result.WIN, Result.LOSE]
  · rcases lt_trichotomy ((c1 : Int) % 13) ((c2 : Int) % 13) with h | h | h
    · rw [compare_cards_of_lt h]; simp [roundResults, Result.WIN, Result.LOSE]
    · rw [compare_cards_of_eq h]; simp [roundResults, Result.LOSE, Result.DRAW]
    · rw [compare_cards_of_gt h]; simp [roundResults, Result.WIN, Result.LOSE]

/-- C7 witness environment: a round whose sends both succeed. -/
def roundEnvW : Env :=
  { want1 := some [0, 0], want2 := some [0, 0],
    deck := List.range 52,
    sendStart1 := true, sendStart2 := true,
    roundRecv1 := fun _ => some [Command.PLAYCARD, 5],
    roundRecv2 := fun _ => some [Command.PLAYCARD, 18],
    roundSend1 := fun _ => true, roundSend2 := fun _ => true }

/-- C7 witness locals: player one played card 5, player two card 18
(spec scenario 4: equal ranks, both sides get Draw). -/
def roundStW : LoopSt :=
  { p1data := [Command.PLAYCARD, 5], p2data := [Command.PLAYCARD, 18],
    p1play := some [Command.PLAYCARD, 5],
    p2play := some [Command.PLAYCARD, 18] }

/-- C7 witness: the complementary-pair theorem at cards 5 and 18. -/
theorem round_result_pair_complementary_witness :
    ∃ r1 r2,
      resultPhase roundEnvW 1 roundStW =
        ([Ev.sendTo1 r1, Ev.sendTo2 r2], RoundRes.cont roundStW) ∧
      (r1, r2) = roundResults (compare_cards (5 : Int) (18 : Int)) ∧
      ((5 % 13 = 18 % 13 ∧
          r1 = [Command.PLAYRESULT, Result.DRAW] ∧
          r2 = [Command.PLAYRESULT, Result.DRAW]) ∨
       (5 % 13 ≠ 18 % 13 ∧
          ((r1 = [Command.PLAYRESULT, Result.WIN] ∧
            r2 = [Command.PLAYRESULT, Result.LOSE]) ∨
           (r1 = [Command.PLAYRESULT, Result.LOSE] ∧
            r2 = [Command.PLAYRESULT, Result.WIN])))) ∧
      ¬(r1 = [Command.PLAYRESULT, Result.WIN] ∧
        r2 = [Command.PLAYRESULT, Result.WIN]) ∧
      ¬(r1 = [Command.PLAYRESULT, Result.LOSE] ∧
        r2 = [Command.PLAYRESULT, Result.LOSE]) :=
  round_result_pair_complementary roundEnvW 1 roundStW 5 18 rfl rfl rfl rfl

/-- Following the spec's words: the per-round score increment of the
client — `+1` for a Win result byte, `-1` for a Lose result byte, `0`
otherwise. -/
def specRoundDelta (result : List Nat) : Int :=
  if result.getD 1 0 = Result.WIN then 1
  else if result.getD 1 0 = Result.LOSE then -1
  else 0

/-- The client's round loop sends one PLAYCARD message per remaining card,
in order, and its final score is the starting score plus the sum of the
per-round deltas of the successive PLAYRESULT reads. -/
theorem clientLoop_eq (results : Nat → List Nat) (cards : List Nat) :
    ∀ (k : Nat) (s : Int),
      clientLoop results cards k s =
        (cards.map (fun card => [Command.PLAYCARD, card]),
         s + ((List.range cards.length).map
           (fun j => specRoundDelta (results (k + j)))).sum) := by
  induction cards with
  | nil => intro k s; simp [clientLoop]
  | cons card rest ih =>
      intro k s
      have hstep :
          (if (results k).getD 1 0 = Result.WIN then s + 1
           else if (results k).getD 1 0 = Result.LOSE then s - 1
           else s) = s + specRoundDelta (results k) := by
        unfold specRoundDelta
        split_ifs <;> ring
      have hrange : (List.range (rest.length + 1)).map
            (fun j => specRoundDelta (results (k + j))) =
          specRoundDelta (results k) ::
            (List.range rest.length).map
              (fun j => specRoundDelta (results (k + 1 + j))) := by
        rw [List.range_succ_eq_map, List.map_cons, List.map_map]
        refine congrArg₂ _ (by simp) (List.map_congr_left ?_)
        intro j hj
        have harg : k + Nat.succ j = k + 1 + j := by omega
        simp [Function.comp, harg]
      simp only [clientLoop, ih (k + 1), List.map_cons, List.length_cons,
        hstep, hrange, List.sum_cons, Prod.mk.injEq]
      exact ⟨trivial, by ring⟩

/-- C8: a client run that completes all 26 rounds plays the 26 cards of
the received 27-byte GameStart message in order, one PLAYCARD message per
round; its net score is the sum over the 26 rounds of `+1` per Win result
byte, `-1` per Lose result byte and `0` otherwise; and the final
classification is `"won"` iff the score is positive, `"lost"` iff it is
negative, and `"drew"` iff it is zero. -/
theorem client_plays_hand_and_scores (card_msg : List Nat)
    (results : Nat → List Nat) (hlen : card_msg.length = 27) :
    (clientRun card_msg results).1 =
      (card_msg.drop 1).map (fun card => [Command.PLAYCARD, card]) ∧
    (clientRun card_msg results).1.length = 26 ∧
    (clientRun card_msg results).2 =
      ((List.range 26).map (fun k => specRoundDelta (results k))).sum ∧
    (classifyScore (clientRun card_msg results).2 = "won" ↔
      0 < (clientRun card_msg results).2) ∧
    (classifyScore (clientRun card_msg results).2 = "lost" ↔
      (clientRun card_msg results).2 < 0) ∧
    (classifyScore (clientRun card_msg results).2 = "drew" ↔
      (clientRun card_msg results).2 = 0) := by
  have hdrop : (card_msg.drop 1).length = 26 := by
    simp [hlen]
  have hrun : clientRun card_msg results =
      ((card_msg.drop 1).map (fun card => [Command.PLAYCARD, card]),
       ((List.range 26).map (fun k => specRoundDelta (results k))).sum) := by
    unfold clientRun
    rw [clientLoop_eq results (card_msg.drop 1) 0 0, hdrop]
    simp
  rw [hrun]
  refine ⟨rfl, by simp [hlen], rfl, ?_, ?_, ?_⟩ <;>
    · unfold classifyScore
      split_ifs with ha hb <;> simp_all <;> omega

/-- C8 witness: a client handed the GameStart message `[1, 0, ..., 25]`
(deck prefix) whose every PLAYRESULT read is a Draw. -/
theorem client_plays_hand_and_scores_witness :
    (clientRun (List.range 27) (fun _ => [3, 1])).1 =
      ((List.range 27).drop 1).map (fun card => [Command.PLAYCARD, card]) ∧
    (clientRun (List.range 27) (fun _ => [3, 1])).1.length = 26 ∧
    (clientRun (List.range 27) (fun _ => [3, 1])).2 =
      ((List.range 26).map
        (fun k => specRoundDelta ((fun _ => [3, 1]) k))).sum ∧
    (classifyScore (clientRun (List.range 27) (fun _ => [3, 1])).2 = "won" ↔
      0 < (clientRun (List.range 27) (fun _ => [3, 1])).2) ∧
    (classifyScore (clientRun (List.range 27) (fun _ => [3, 1])).2 = "lost" ↔
      (clientRun (List.range 27) (fun _ => [3, 1])).2 < 0) ∧
    (classifyScore (clientRun (List.range 27) (fun _ => [3, 1])).2 = "drew" ↔
      (clientRun (List.range 27) (fun _ => [3, 1])).2 = 0) :=
  client_plays_hand_and_scores (List.range 27) (fun _ => [3, 1]) (by decide)

/-- From a limiter state with no agent in flight, every pending agent can
be driven to completion (acquire the semaphore, run, release), as long as
the ceiling admits at least one holder. -/
theorem limReach_drain (L : Nat) (hL : 0 < L) :
    ∀ (p d : Nat),
      Relation.ReflTransGen (LimStep L) ⟨p, 0, d⟩ ⟨0, 0, d + p⟩ := by
  intro p
  induction p with
  | zero => intro d; exact Relation.ReflTransGen.refl
  | succ n ih =>
      intro d
      have s1 : LimStep L ⟨n + 1, 0, d⟩ ⟨n, 1, d⟩ :=
        LimStep.start n 0 d hL
      have s2 : LimStep L ⟨n, 1, d⟩ ⟨n, 0, d + 1⟩ :=
        LimStep.finish n 0 d
      have rest : Relation.ReflTransGen (LimStep L) ⟨n, 0, d + 1⟩
          ⟨0, 0, d + (n + 1)⟩ := by
        have := ih (d + 1)
        have harith : d + 1 + n = d + (n + 1) := by omega
        rwa [harith] at this
      exact Relation.ReflTransGen.head s1
        (Relation.ReflTransGen.head s2 rest)

/-- C9: under the limiter with ceiling `L` (positive) and `N` agents, every
reachable scheduler state has at most `L` agents in the non-terminal
(semaphore-holding, started-but-unfinished) phase, and the state in which
all `N` agents have been run to completion is reachable. -/
theorem limiter_bounded_and_complete (L N : Nat) (hL : 0 < L) :
    (∀ s, LimReach L N s → s.running ≤ L) ∧
    LimReach L N ⟨0, 0, N⟩ := by
  constructor
  · intro s h
    induction h with
    | refl => exact Nat.zero_le L
    | tail _ hbc ih =>
        cases hbc with
        | start p r d hr => exact hr
        | finish p r d => exact Nat.le_of_succ_le ih
  · have := limReach_drain L hL N 0
    simpa [LimReach] using this

/-- C9 witness: with ceiling 1 and 2 agents, every reachable state has at
most one agent in flight and the all-done state is reachable. -/
theorem limiter_bounded_and_complete_witness :
    (∀ s, LimReach 1 2 s → s.running ≤ 1) ∧
    LimReach 1 2 ⟨0, 0, 2⟩ :=
  limiter_bounded_and_complete 1 2 (by decide)

end War
